import Mathlib

/-!
Verification development for the CS439 vehicle-data pipeline
(`cleaning.py`, `aggregates.py`, `enrich_sports_dataset.py`,
`plots_epa.py`, `plots_sports.py`, `plots_act3.py`, `dashboard_app.py`).

Dataframes are embedded as lists of typed records; float columns become
`Option ℚ` (a `none` models a pandas `NaN` cell); pandas row filters become
`List.filter`; `groupby(...).mean()` becomes grouping by the key followed by
the NaN-skipping mean `meanOpt`.
-/

namespace CS439

/-! ### Field normalizer (`cleaning.py` numeric-column cleaning,
`enrich_sports_dataset.py` numeric-column cleaning)

The source cleans a raw cell with
`astype(str).str.replace(",", "", regex=False).str.extract(r"([0-9.]+)")[0]`
followed by `pd.to_numeric(..., errors="coerce")`.
`str.extract` returns the first (maximal, greedy) run of characters drawn
from `[0-9.]`; `to_numeric` then parses that run, giving `NaN` when the run
is not a well-formed float literal (e.g. it has two dots or no digit).
-/

/-- A character matched by the source's extraction regex `[0-9.]`. -/
def isNumChar (c : Char) : Bool :=
  c.isDigit || c = '.'

/-- First maximal run of `[0-9.]` characters, as found by
`str.extract(r"([0-9.]+)")`: regex search takes the earliest starting
position and extends greedily. -/
def firstNumRun : List Char → Option (List Char)
  | [] => none
  | c :: cs => if isNumChar c then some (c :: cs.takeWhile isNumChar) else firstNumRun cs

/-- Value of a digit string, most significant digit first. -/
def digitsToNat (l : List Char) : Nat :=
  l.foldl (fun n c => 10 * n + (c.toNat - 48)) 0

/-- `pd.to_numeric(tok, errors="coerce")` restricted to the tokens reachable
here (runs of digits and dots): succeeds exactly on `digits`, `digits.digits`,
`.digits` and `digits.`, and is `none` (NaN) otherwise — in particular on
runs holding two or more dots or no digit at all. -/
def parseFloatQ (t : List Char) : Option ℚ :=
  let ip := t.takeWhile Char.isDigit
  let rest := t.drop ip.length
  match rest with
  | [] => if ip.isEmpty then none else some (digitsToNat ip : ℚ)
  | '.' :: frac =>
    if frac.all Char.isDigit && !(ip.isEmpty && frac.isEmpty) then
      some ((digitsToNat ip : ℚ) + (digitsToNat frac : ℚ) / (10 : ℚ) ^ frac.length)
    else none
  | _ :: _ => none

/-- Numeric-cell normalizer of `cleaning.py` (`load_and_clean_sports`,
`load_and_clean_sports_with_mpg`): drop commas, extract the first `[0-9.]+`
run, coerce to a number. -/
def normalizeNumericCell (s : String) : Option ℚ :=
  let cleaned := s.toList.filter (fun c => decide (c ≠ ','))
  match firstNumRun cleaned with
  | none => none
  | some t => parseFloatQ t

/-- Numeric-cell normalizer of `enrich_sports_dataset.py`, which additionally
drops `'$'` before extracting. -/
def normalizeNumericCellEnrich (s : String) : Option ℚ :=
  let cleaned := s.toList.filter (fun c => decide (c ≠ ',' ∧ c ≠ '$'))
  match firstNumRun cleaned with
  | none => none
  | some t => parseFloatQ t

/-- Token extension used by the spec reading of the normalizer: extend over
digits, allowing at most one decimal point (`dotSeen` tracks whether the
point was already taken). -/
def takeFloatToken : List Char → Bool → List Char
  | [], _ => []
  | c :: cs, dotSeen =>
    if c.isDigit then c :: takeFloatToken cs dotSeen
    else if c = '.' && !dotSeen then c :: takeFloatToken cs true
    else []

/-- First such token, starting at the earliest `[0-9.]` character. -/
def specFirstToken : List Char → Option (List Char)
  | [] => none
  | c :: cs => if isNumChar c then some (takeFloatToken (c :: cs) false) else specFirstToken cs

/-- Normalizer as the spec words it: "extract the first maximal numeric
substring (digits plus at most one decimal point), parse it as a
floating-point number"; written against the spec, to be compared with the
source-derived `normalizeNumericCell`. -/
def specNormalizeClaim (s : String) : Option ℚ :=
  let cleaned := s.toList.filter (fun c => decide (c ≠ ',' ∧ c ≠ '$'))
  match specFirstToken cleaned with
  | none => none
  | some t => parseFloatQ t

/-! ### Records

`EpaRow` embeds one row of the EPA (mainstream) dataframe restricted to the
columns the pipeline touches; `SportsRow` one row of the sports dataframe.
String cells that can be `NaN` are `Option String`, float cells `Option ℚ`.
-/

/-- One EPA dataframe row: `Make`, `Model`, `Year`, `Fuel Type`, `MPG Data`,
`Combined Mpg For Fuel Type1`, `Co2  Tailpipe For Fuel Type1`,
`Engine displacement`, `Horsepower (est)`, `0-60 time (est)`. -/
structure EpaRow where
  make : Option String
  model : Option String
  year : Int
  fuelType : Option String
  mpgData : Option String
  mpg : Option ℚ
  co2 : Option ℚ
  displacement : Option ℚ
  hp : Option ℚ
  zeroSixty : Option ℚ
  deriving DecidableEq

/-- One sports dataframe row: `Car Make`, `Car Model`, `Year`,
`Engine Size (L)`, `Horsepower`, `Torque (lb-ft)`,
`0-60 MPH Time (seconds)`, `Price (in USD)`, `MPG`. -/
structure SportsRow where
  make : Option String
  model : Option String
  year : Int
  engineSize : Option ℚ
  hp : Option ℚ
  torque : Option ℚ
  zeroSixty : Option ℚ
  price : Option ℚ
  mpg : Option ℚ
  deriving DecidableEq

/-- Natural key `(Car Make, Car Model, Year)` of a sports record. -/
def naturalKey (r : SportsRow) : Option String × Option String × Int :=
  (r.make, r.model, r.year)

/-- Natural key `(Make, Model, Year)` of an EPA record. -/
def epaKey (r : EpaRow) : Option String × Option String × Int :=
  (r.make, r.model, r.year)

/-! ### Category classifier (`cleaning.filter_sports_from_epa`,
`enrich_sports_dataset.py` extraction) -/

/-- `sports_brands_full` of `cleaning.py` / `enrich_sports_dataset.py`. -/
def sports_brands_full : List String :=
  ["Porsche", "Ferrari", "Lamborghini", "McLaren", "Aston Martin",
   "Bentley", "Bugatti", "Maserati", "Lotus", "Alfa Romeo",
   "Rolls-Royce", "Koenigsegg", "Pagani", "Alpine", "Ariel",
   "Spyker", "TVR", "Morgan", "Caterham", "Pininfarina",
   "Rimac", "W Motors", "Ultima"]

/-- `performance_keywords` of `cleaning.py` / `enrich_sports_dataset.py`. -/
def performance_keywords : List String :=
  ["M2", "M3", "M4", "M5", "M6", "M8", "X5 M", "X6 M", "X3 M", "X4 M", "i8",
   "R8", "RS3", "RS4", "RS5", "RS6", "RS7", "TT RS", "S3", "S4", "S5", "S6", "S7", "S8",
   "RS e-tron GT",
   "AMG GT", "C63", "E63", "S63", "G63", "GLE63", "GLS63", "CLA45", "A45", "SL63", "SL65",
   "C43", "E43", "GLE43", "GLC43", "SLS AMG",
   "LC 500", "RC F", "GS F", "IS F",
   "F-Type", "F-PACE SVR", "XE SV", "XF R",
   "CTS-V", "ATS-V", "CT5-V", "CT4-V", "Blackwing",
   "Corvette", "Mustang GT", "Mustang Shelby", "Mustang Mach 1", "GT350", "GT500",
   "Camaro SS", "Camaro ZL1", "Camaro Z28",
   "Challenger Hellcat", "Challenger SRT", "Charger Hellcat", "Charger SRT", "Viper",
   "GT-R", "370Z", "350Z", "400Z",
   "Supra", "GR Supra", "86",
   "Type R", "NSX",
   "WRX STI", "BRZ",
   "Veloster N",
   "Stinger GT"]

/-- `df["Make"].isin(sports_brands_full)`: case-sensitive exact membership;
a `NaN` make is never a member. -/
def makeInBrands (make : Option String) : Bool :=
  match make with
  | some m => decide (m ∈ sports_brands_full)
  | none => false

/-- `df["Model"].str.contains(keyword, case=False, na=False)`: case-folded
substring test; a `NaN` model yields `False`.  The keywords hold no regex
metacharacters, so `str.contains` is plain substring search; lowercasing is
per character, which coincides with `str.lower()` on these ASCII
keywords. -/
def modelContainsKeyword (model : Option String) (kw : String) : Bool :=
  match model with
  | some m => decide ((kw.toList.map Char.toLower) <:+: (m.toList.map Char.toLower))
  | none => false

/-- The classifier's decision: brand allowlist hit (case-sensitive exact) or
performance-keyword hit (case-insensitive substring). -/
def isSportsVehicle (make model : Option String) : Bool :=
  makeInBrands make || performance_keywords.any (fun kw => modelContainsKeyword model kw)

/-- `cleaning.filter_sports_from_epa`: drop allowlisted brands, then drop
keyword matches one keyword at a time (the `for keyword in
performance_keywords` loop of repeated boolean-mask filters). -/
def filter_sports_from_epa (rows : List EpaRow) : List EpaRow :=
  let afterBrand := rows.filter (fun r => !makeInBrands r.make)
  performance_keywords.foldl
    (fun acc kw => acc.filter (fun r => !modelContainsKeyword r.model kw)) afterBrand

/-! ### Keyed deduplication (`drop_duplicates(subset=..., keep='first')`) -/

/-- `drop_duplicates(keep='first')` on key `key`: keep a row iff its key was
not seen earlier in the traversal (pandas treats `NaN` keys as equal when
detecting duplicates, matching `Option` equality here). -/
def dedupByKey {α κ : Type} [DecidableEq κ] (key : α → κ) : List α → List κ → List α
  | [], _ => []
  | r :: rs, seen =>
    if key r ∈ seen then dedupByKey key rs seen
    else r :: dedupByKey key rs (key r :: seen)

/-- Price of a sports row in `WithBot ℚ`: `NaN` prices sit at `⊥`, so the
descending order below puts them last, matching
`sort_values(by="Price (in USD)", ascending=False, na_position='last')`. -/
def priceW (r : SportsRow) : WithBot ℚ :=
  match r.price with
  | some p => (p : WithBot ℚ)
  | none => ⊥

/-- `a` may precede `b` under descending-price, NaN-last ordering. -/
def PriceLE (a b : SportsRow) : Prop :=
  priceW b ≤ priceW a

instance : DecidableRel PriceLE := fun a b =>
  inferInstanceAs (Decidable (priceW b ≤ priceW a))

instance : IsTotal SportsRow PriceLE :=
  ⟨fun a b => (le_total (priceW b) (priceW a)).elim Or.inl Or.inr⟩

instance : IsTrans SportsRow PriceLE :=
  ⟨fun _ _ _ hab hbc => le_trans hbc hab⟩

/-- Dedup step of `cleaning.load_and_clean_sports_with_mpg`: sort by price
descending with missing prices last, then `drop_duplicates(subset=["Car
Make", "Car Model", "Year"], keep='first')`.  The pandas sort kind is
unspecified among equal prices; insertion sort is one consistent
realization, and no theorem below depends on the tie order. -/
def dedup_sports (rows : List SportsRow) : List SportsRow :=
  dedupByKey naturalKey (List.insertionSort PriceLE rows) []

/-! ### Dataset reconciler (`enrich_sports_dataset.py`) -/

/-- Extraction of sports cars from the EPA frame: brand matches, then the
keyword loop appending `epa[epa['Model'].str.contains(keyword, ...)]` for
each keyword, then `drop_duplicates(subset=['Make', 'Model', 'Year'])`. -/
def sports_from_epa_rows (epa : List EpaRow) : List EpaRow :=
  let byBrand := epa.filter (fun r => makeInBrands r.make)
  let collected := performance_keywords.foldl
    (fun acc kw => acc ++ epa.filter (fun r => modelContainsKeyword r.model kw)) byBrand
  dedupByKey epaKey collected []

/-- Column mapping of `epa_sports_mapped`: displacement→engine size,
estimated horsepower→horsepower, estimated 0-60→0-60 time, torque and price
left absent (`pd.NA`), combined MPG carried over. -/
def epaRowToSports (r : EpaRow) : SportsRow :=
  { make := r.make, model := r.model, year := r.year,
    engineSize := r.displacement, hp := r.hp, torque := none,
    zeroSixty := r.zeroSixty, price := none, mpg := r.mpg }

/-- `epa_sports_mapped` built from the raw EPA frame. -/
def epa_sports_mapped (epa : List EpaRow) : List SportsRow :=
  (sports_from_epa_rows epa).map epaRowToSports

/-- `epa_sports_new`: EPA-derived rows whose `(Car Make, Car Model, Year)` is
not already a key of the original sports dataset (`sports_keys` set
membership test). -/
def epa_sports_new (sports mapped : List SportsRow) : List SportsRow :=
  mapped.filter (fun r => !decide (naturalKey r ∈ sports.map naturalKey))

/-- `enriched_sports = pd.concat([sports, epa_sports_new])`. -/
def enriched_sports (sports mapped : List SportsRow) : List SportsRow :=
  sports ++ epa_sports_new sports mapped

/-! ### Yearly aggregator -/

/-- `mean()` of one pandas column: NaN cells are excluded from both sum and
count; a column with no non-null cell has mean `NaN`. -/
def meanOpt (vals : List (Option ℚ)) : Option ℚ :=
  let vs := vals.filterMap id
  if vs.isEmpty then none else some (vs.sum / (vs.length : ℚ))

/-- Group keys of `groupby("Year")`: the distinct years, ascending. -/
def sortedYears (ys : List Int) : List Int :=
  List.insertionSort (· ≤ ·) ys.dedup

/-- An EPA dataframe together with the one schema fact the plot-level code
inspects dynamically (`"Fuel Type" in df.columns`). -/
structure EpaPlotFrame where
  rows : List EpaRow
  hasFuelTypeCol : Bool

/-- Row mask of `plots_epa.compute_epa_yearly_aggregates` (and of
`compute_fuel_share_by_year`, which repeats it verbatim): year-range test,
and the fuel-type `isin` filter applied only when `fuel_types` is truthy
(non-`None` and non-empty) and the column exists. -/
def epaMask (hasFuelTypeCol : Bool) (yearMin yearMax : Int)
    (fuelTypes : Option (List String)) (r : EpaRow) : Bool :=
  (decide (yearMin ≤ r.year) && decide (r.year ≤ yearMax)) &&
  (match fuelTypes with
   | none => true
   | some l =>
     if l.isEmpty then true
     else if hasFuelTypeCol then
       match r.fuelType with
       | some ft => decide (ft ∈ l)
       | none => false
     else true)

/-- One output row of the EPA yearly aggregation. -/
structure EpaYearlyRow where
  year : Int
  mpg : Option ℚ
  co2 : Option ℚ
  displacement : Option ℚ
  deriving DecidableEq

/-- `plots_epa.compute_epa_yearly_aggregates`: filter by year range and
optional fuel types, then `groupby("Year")[...].mean().sort_values("Year")`. -/
def compute_epa_yearly_aggregates (df : EpaPlotFrame) (yearMin yearMax : Int)
    (fuelTypes : Option (List String)) : List EpaYearlyRow :=
  let sub := df.rows.filter (epaMask df.hasFuelTypeCol yearMin yearMax fuelTypes)
  (sortedYears (sub.map (·.year))).map (fun y =>
    let g := sub.filter (fun r => decide (r.year = y))
    { year := y,
      mpg := meanOpt (g.map (·.mpg)),
      co2 := meanOpt (g.map (·.co2)),
      displacement := meanOpt (g.map (·.displacement)) })

/-- A sports dataframe together with the dynamically inspected schema fact
(`"Car Make" in df.columns`). -/
structure SportsPlotFrame where
  rows : List SportsRow
  hasMakeCol : Bool

/-- Row mask of `plots_sports.compute_sports_yearly_aggregates`: year range,
and the brand `isin` filter applied only when `brands` is truthy and the
`Car Make` column exists. -/
def sportsMask (hasMakeCol : Bool) (yearMin yearMax : Int)
    (brands : Option (List String)) (r : SportsRow) : Bool :=
  (decide (yearMin ≤ r.year) && decide (r.year ≤ yearMax)) &&
  (match brands with
   | none => true
   | some l =>
     if l.isEmpty then true
     else if hasMakeCol then
       match r.make with
       | some m => decide (m ∈ l)
       | none => false
     else true)

/-- One output row of the sports yearly aggregation (plots variant). -/
structure SportsYearlyRow where
  year : Int
  hp : Option ℚ
  engineSize : Option ℚ
  price : Option ℚ
  zeroSixty : Option ℚ
  deriving DecidableEq

/-- `plots_sports.compute_sports_yearly_aggregates`. -/
def compute_sports_yearly_aggregates (df : SportsPlotFrame) (yearMin yearMax : Int)
    (brands : Option (List String)) : List SportsYearlyRow :=
  let sub := df.rows.filter (sportsMask df.hasMakeCol yearMin yearMax brands)
  (sortedYears (sub.map (·.year))).map (fun y =>
    let g := sub.filter (fun r => decide (r.year = y))
    { year := y,
      hp := meanOpt (g.map (·.hp)),
      engineSize := meanOpt (g.map (·.engineSize)),
      price := meanOpt (g.map (·.price)),
      zeroSixty := meanOpt (g.map (·.zeroSixty)) })

/-- Mean as the spec words it: "the arithmetic mean of all non-null source
values for that (year, metric) pair", with "a metric with zero non-null
contributing records in a year yields a null"; stated over the already
null-stripped value list, to be compared with the source-derived
`meanOpt`. -/
def meanSpec (vals : List ℚ) : Option ℚ :=
  if vals = [] then none else some (vals.sum / (vals.length : ℚ))

/-- The EPA rows contributing to one year of
`compute_epa_yearly_aggregates`: the filtered frame restricted to that
year. -/
def epaYearGroup (df : EpaPlotFrame) (y0 y1 : Int) (fts : Option (List String))
    (y : Int) : List EpaRow :=
  (df.rows.filter (epaMask df.hasFuelTypeCol y0 y1 fts)).filter
    (fun r => decide (r.year = y))

/-- The sports rows contributing to one year of
`compute_sports_yearly_aggregates`. -/
def sportsYearGroup (df : SportsPlotFrame) (y0 y1 : Int)
    (brands : Option (List String)) (y : Int) : List SportsRow :=
  (df.rows.filter (sportsMask df.hasMakeCol y0 y1 brands)).filter
    (fun r => decide (r.year = y))

/-! ### Schema-checked yearly aggregates (`aggregates.py`)

These functions validate the schema first; a dataframe is therefore embedded
with an explicit column list (`df.columns`) next to its typed rows. -/

/-- An EPA dataframe with its column list, as consumed by
`aggregates.compute_epa_yearly`. -/
structure EpaFrame where
  cols : List String
  rows : List EpaRow

/-- A sports dataframe with its column list, as consumed by
`aggregates.compute_sports_yearly`. -/
structure SportsFrame where
  cols : List String
  rows : List SportsRow

/-- `required_cols` of `aggregates.compute_epa_yearly`. -/
def requiredEpaCols : List String :=
  ["Year", "Combined Mpg For Fuel Type1", "Co2  Tailpipe For Fuel Type1",
   "Engine displacement"]

/-- `required_cols` of `aggregates.compute_sports_yearly`. -/
def requiredSportsCols : List String :=
  ["Year", "Engine Size (L)", "Horsepower", "Torque (lb-ft)",
   "0-60 MPH Time (seconds)", "Price (in USD)"]

/-- One output row of `aggregates.compute_sports_yearly`. -/
structure SportsYearlyFullRow where
  year : Int
  engineSize : Option ℚ
  hp : Option ℚ
  torque : Option ℚ
  zeroSixty : Option ℚ
  price : Option ℚ
  deriving DecidableEq

/-- `aggregates.compute_epa_yearly`: raise `ValueError` naming the missing
required columns when any is absent (the `Except.error` carries that list),
else `groupby("Year").mean()` sorted by year. -/
def compute_epa_yearly (f : EpaFrame) : Except (List String) (List EpaYearlyRow) :=
  let missing := requiredEpaCols.filter (fun c => !f.cols.contains c)
  if missing.isEmpty then
    .ok ((sortedYears (f.rows.map (·.year))).map (fun y =>
      let g := f.rows.filter (fun r => decide (r.year = y))
      { year := y,
        mpg := meanOpt (g.map (·.mpg)),
        co2 := meanOpt (g.map (·.co2)),
        displacement := meanOpt (g.map (·.displacement)) }))
  else .error missing

/-- `aggregates.compute_sports_yearly`, same validation shape. -/
def compute_sports_yearly (f : SportsFrame) :
    Except (List String) (List SportsYearlyFullRow) :=
  let missing := requiredSportsCols.filter (fun c => !f.cols.contains c)
  if missing.isEmpty then
    .ok ((sortedYears (f.rows.map (·.year))).map (fun y =>
      let g := f.rows.filter (fun r => decide (r.year = y))
      { year := y,
        engineSize := meanOpt (g.map (·.engineSize)),
        hp := meanOpt (g.map (·.hp)),
        torque := meanOpt (g.map (·.torque)),
        zeroSixty := meanOpt (g.map (·.zeroSixty)),
        price := meanOpt (g.map (·.price)) }))
  else .error missing

/-! ### Base-year normalization (`plots_epa.make_epa_trend_figure`,
`plots_sports.make_sports_trend_figure`, `plots_act3.make_indices_chart`) -/

/-- Per-column normalization of the trend figures: take the column's
non-null values (`dropna()`); when there is one and the first
(`non_null.iloc[0]`) is nonzero, rescale the whole column (null cells stay
null); otherwise — empty column or zero base — the column is left at its raw
values (the source has no `else` branch). -/
def normalize_series (vals : List (Option ℚ)) : List (Option ℚ) :=
  match vals.filterMap id with
  | [] => vals
  | b :: _ =>
    if b ≠ 0 then vals.map (Option.map (fun v => v / b * 100)) else vals

/-- Per-category index of `plots_act3.make_indices_chart`: the base is the
first *row*'s value (`iloc[0]`, which may itself be `NaN`); when it is `> 0`
each yearly mean is rescaled (null means stay null), otherwise — including a
`NaN` base, since `NaN > 0` is false — the whole index column is set to
`100`.  An empty series stays empty. -/
def act3_base_index (yearly : List (Int × Option ℚ)) : List (Int × Option ℚ) :=
  match yearly with
  | [] => []
  | (_, b?) :: _ =>
    match b? with
    | some b =>
      if 0 < b then yearly.map (fun p => (p.1, p.2.map (fun v => 100 * v / b)))
      else yearly.map (fun p => (p.1, some 100))
    | none => yearly.map (fun p => (p.1, some 100))

/-! ### Fuel-share table (`plots_epa.compute_fuel_share_by_year`,
percentage conversion of `make_epa_fuel_share_figure`) -/

/-- `plots_epa.compute_fuel_share_by_year`: the same row mask as the yearly
aggregation, a `ValueError` when the `Fuel Type` column is absent, then
`groupby(["Year", "Fuel Type"]).size()` (rows with a `NaN` fuel type are
dropped by pandas from the group keys) pivoted to one row per year and one
column per observed fuel type, absent cells filled with `0`. -/
def compute_fuel_share_by_year (df : EpaPlotFrame) (yearMin yearMax : Int)
    (fuelTypes : Option (List String)) :
    Except String (List (Int × List (String × Nat))) :=
  let sub := df.rows.filter (epaMask df.hasFuelTypeCol yearMin yearMax fuelTypes)
  if df.hasFuelTypeCol then
    let good := sub.filter (fun r => r.fuelType.isSome)
    let fuelCols := (good.filterMap (·.fuelType)).dedup
    let years := sortedYears (good.map (·.year))
    .ok (years.map (fun y =>
      (y, fuelCols.map (fun ft =>
        (ft, (good.filter (fun r =>
          decide (r.year = y) && decide (r.fuelType = some ft))).length)))))
  else .error "DataFrame must have Fuel Type column"

/-- Percentage conversion of `make_epa_fuel_share_figure` /
`dashboard_app.update_fuel_share_chart`: per year row, divide each count by
the row sum — with a zero row sum replaced by `1` (`row_sums.replace(0, 1)`)
— and multiply by 100. -/
def to_percent (table : List (Int × List (String × Nat))) :
    List (Int × List (String × ℚ)) :=
  table.map (fun row =>
    let total : Nat := (row.2.map (·.2)).sum
    let denom : ℚ := if total = 0 then 1 else (total : ℚ)
    (row.1, row.2.map (fun c => (c.1, (c.2 : ℚ) / denom * 100))))

/-! ### Loaders (`cleaning.load_and_clean_epa`, `cleaning.load_and_clean_sports`)

File reading is abstracted as a map from path to parsed table.  Both loaders
convert their `path` argument with `Path(path)` and then never use it: the
`pd.read_csv` call names a hardcoded literal path. -/

/-- Parsed content of an EPA CSV file, with the two dynamically tested
schema facts (`"Year" in epa.columns`, `"MPG Data" in epa.columns`). -/
structure EpaCsv where
  rows : List EpaRow
  hasYearCol : Bool
  hasMpgDataCol : Bool

/-- Raw sports CSV row: the numeric columns are still strings. -/
structure SportsCsvRow where
  make : Option String
  model : Option String
  year : Int
  engineSizeRaw : String
  hpRaw : String
  torqueRaw : String
  zeroSixtyRaw : String
  priceRaw : String

/-- Parsed content of a sports CSV file. -/
structure SportsCsv where
  rows : List SportsCsvRow
  hasYearCol : Bool

/-- `cleaning.load_and_clean_epa`: reads the hardcoded
`../data/raw/all-vehicles-model.csv` (the `path` parameter is unused), keeps
the columns of interest (already reflected in `EpaRow`'s typed fields),
raises when `Year` is absent, filters to the year range, and keeps rows with
`MPG Data == "Y"` when that column exists (all rows otherwise).  The final
`pd.to_numeric(..., errors="coerce")` passes are identity on cells already
parsed into `Option ℚ`. -/
def load_and_clean_epa (fs : String → EpaCsv) (path : String)
    (yearMin yearMax : Int) : Except String (List EpaRow) :=
  let _ := path
  let epa := fs "../data/raw/all-vehicles-model.csv"
  if epa.hasYearCol then
    .ok (epa.rows.filter (fun r =>
      (decide (yearMin ≤ r.year) && decide (r.year ≤ yearMax)) &&
      (if epa.hasMpgDataCol then
        match r.mpgData with
        | some s => decide (s = "Y")
        | none => false
      else true)))
  else .error "EPA dataset is missing Year column."

/-- Numeric cleaning of one raw sports row (the per-column
`replace/extract/to_numeric` loop of `load_and_clean_sports`; that CSV has
no `MPG` column, so `mpg` is absent). -/
def cleanSportsCsvRow (r : SportsCsvRow) : SportsRow :=
  { make := r.make, model := r.model, year := r.year,
    engineSize := normalizeNumericCell r.engineSizeRaw,
    hp := normalizeNumericCell r.hpRaw,
    torque := normalizeNumericCell r.torqueRaw,
    zeroSixty := normalizeNumericCell r.zeroSixtyRaw,
    price := normalizeNumericCell r.priceRaw,
    mpg := none }

/-- `cleaning.load_and_clean_sports`: reads the hardcoded
`../data/raw/Sport-car-price.csv` (the `path` parameter is unused), cleans
the numeric columns, raises when `Year` is absent, then filters to the year
range. -/
def load_and_clean_sports (fs : String → SportsCsv) (path : String)
    (yearMin yearMax : Int) : Except String (List SportsRow) :=
  let _ := path
  let t := fs "../data/raw/Sport-car-price.csv"
  let cleaned := t.rows.map cleanSportsCsvRow
  if t.hasYearCol then
    .ok (cleaned.filter (fun r => decide (yearMin ≤ r.year) && decide (r.year ≤ yearMax)))
  else .error "Sports dataset is missing Year column."

/-! ## Theorems -/

/-- C9: the loaders `load_and_clean_epa` and `load_and_clean_sports` ignore
their `path` parameter and always read the hardcoded file: for any two path
arguments and identical year bounds the results coincide. -/
theorem c9_loaders_ignore_path :
    (∀ (fs : String → EpaCsv) (p1 p2 : String) (y0 y1 : Int),
      load_and_clean_epa fs p1 y0 y1 = load_and_clean_epa fs p2 y0 y1) ∧
    (∀ (fs : String → SportsCsv) (p1 p2 : String) (y0 y1 : Int),
      load_and_clean_sports fs p1 y0 y1 = load_and_clean_sports fs p2 y0 y1) :=
  ⟨fun _ _ _ _ _ => rfl, fun _ _ _ _ _ => rfl⟩

/-- C10: an empty filter list selects all records rather than none:
`compute_epa_yearly_aggregates` with `fuel_types=[]` equals the `None` call,
and likewise `compute_sports_yearly_aggregates` with `brands=[]` and
`compute_fuel_share_by_year` with `fuel_types=[]`. -/
theorem c10_empty_filter_selects_all :
    (∀ (df : EpaPlotFrame) (y0 y1 : Int),
      compute_epa_yearly_aggregates df y0 y1 (some []) =
        compute_epa_yearly_aggregates df y0 y1 none) ∧
    (∀ (df : SportsPlotFrame) (y0 y1 : Int),
      compute_sports_yearly_aggregates df y0 y1 (some []) =
        compute_sports_yearly_aggregates df y0 y1 none) ∧
    (∀ (df : EpaPlotFrame) (y0 y1 : Int),
      compute_fuel_share_by_year df y0 y1 (some []) =
        compute_fuel_share_by_year df y0 y1 none) :=
  ⟨fun _ _ _ => rfl, fun _ _ _ => rfl, fun _ _ _ => rfl⟩

/-- C1 counterexample: a series whose base (first non-null) value is `0` is
left at its raw values by the trend-figure normalization, not turned into
the all-`100` series the claim requires. -/
theorem c1_counterexample :
    normalize_series [some (0 : ℚ), some 5] = [some 0, some 5] ∧
    normalize_series [some (0 : ℚ), some 5] ≠ [some 100, some 100] := by
  decide

/-- C1 amended: in the trend figures, a metric column whose first non-null
value `b` is nonzero is rescaled by `100 / b` (null cells staying null);
when `b = 0` or the column is all-null the column keeps its raw values.  In
`make_indices_chart`, a category series whose first-year value is `> 0` is
rescaled by `100 / base`, and one whose first-year value is `≤ 0` or null
becomes exactly `100` for all years. -/
theorem c1_amended_normalization :
    (∀ (vals : List (Option ℚ)) (b : ℚ) (rest : List ℚ),
      vals.filterMap id = b :: rest → b ≠ 0 →
      normalize_series vals = vals.map (Option.map (fun v => v / b * 100))) ∧
    (∀ (vals : List (Option ℚ)) (rest : List ℚ),
      vals.filterMap id = 0 :: rest → normalize_series vals = vals) ∧
    (∀ vals : List (Option ℚ),
      vals.filterMap id = [] → normalize_series vals = vals) ∧
    (∀ (y : Int) (b : ℚ) (rest : List (Int × Option ℚ)),
      0 < b → act3_base_index ((y, some b) :: rest) =
        ((y, some b) :: rest).map (fun p => (p.1, p.2.map (fun v => 100 * v / b)))) ∧
    (∀ (y : Int) (b? : Option ℚ) (rest : List (Int × Option ℚ)),
      (∀ b, b? = some b → b ≤ 0) →
      act3_base_index ((y, b?) :: rest) =
        ((y, b?) :: rest).map (fun p => (p.1, some 100))) := by
  refine ⟨?_, ?_, ?_, ?_, ?_⟩
  · intro vals b rest h hb
    unfold normalize_series
    rw [h]
    simp [hb]
  · intro vals rest h
    unfold normalize_series
    rw [h]
    simp
  · intro vals h
    unfold normalize_series
    rw [h]
  · intro y b rest hb
    unfold act3_base_index
    simp [hb]
  · intro y b? rest hb
    unfold act3_base_index
    cases b? with
    | none => rfl
    | some b =>
      have : ¬(0 < b) := not_lt.mpr (hb b rfl)
      simp [this]

/-- C1 amended, witness: the spec's `[40, 44, 48]` series normalizes to
`[100, 110, 120]`, and an act3 series with base `0` becomes all-`100`. -/
theorem c1_amended_normalization_witness :
    normalize_series [some (40 : ℚ), some 44, some 48] =
      [some 100, some 110, some 120] ∧
    act3_base_index [((2011 : Int), some (0 : ℚ)), (2012, some 7)] =
      [(2011, some 100), (2012, some 100)] := by
  constructor
  · have h := c1_amended_normalization.1 [some (40 : ℚ), some 44, some 48] 40 [44, 48]
      (by decide) (by norm_num)
    rw [h]
    simp only [List.map_cons, List.map_nil, Option.map_some']
    norm_num
  · have h := c1_amended_normalization.2.2.2.2 (2011 : Int) (some (0 : ℚ)) [(2012, some 7)]
      (fun b hb => by cases hb; exact le_refl 0)
    rw [h]
    rfl

/-- C3 counterexample: two distinct records sharing the natural key inside
the original sports input both survive `enriched_sports`, so the merged
output carries a duplicated `(make, model, year)` key. -/
theorem c3_counterexample :
    (⟨some "Porsche", some "911", 2020, none, none, none, none,
       some 120000, none⟩ : SportsRow) ≠
      (⟨some "Porsche", some "911", 2020, none, none, none, none,
        none, none⟩ : SportsRow) ∧
    naturalKey (⟨some "Porsche", some "911", 2020, none, none, none, none,
       some 120000, none⟩ : SportsRow) =
      naturalKey (⟨some "Porsche", some "911", 2020, none, none, none, none,
        none, none⟩ : SportsRow) ∧
    enriched_sports
      [⟨some "Porsche", some "911", 2020, none, none, none, none,
         some 120000, none⟩,
       ⟨some "Porsche", some "911", 2020, none, none, none, none,
         none, none⟩] [] =
      [⟨some "Porsche", some "911", 2020, none, none, none, none,
         some 120000, none⟩,
       ⟨some "Porsche", some "911", 2020, none, none, none, none,
         none, none⟩] := by
  refine ⟨by decide, rfl, rfl⟩

/-- C4 counterexample: the extraction regex `[0-9.]+` grabs the whole run
`"1.2.3"`, which `to_numeric` coerces to missing, whereas the claim requires
the parse of the first maximal numeric substring with at most one decimal
point, `"1.2"`, i.e. `6/5`. -/
theorem c4_counterexample :
    normalizeNumericCell "1.2.3" = none ∧
    specNormalizeClaim "1.2.3" = some (6 / 5 : ℚ) := by
  refine ⟨by decide, ?_⟩
  have htok : specFirstToken (("1.2.3".toList).filter
      (fun c => decide (c ≠ ',' ∧ c ≠ '$'))) = some ['1', '.', '2'] := by decide
  have hstep : specNormalizeClaim "1.2.3" = parseFloatQ ['1', '.', '2'] := by
    simp only [specNormalizeClaim]
    rw [htok]
  rw [hstep]
  have hp : parseFloatQ ['1', '.', '2'] =
      some ((digitsToNat ['1'] : ℚ) + (digitsToNat ['2'] : ℚ) / (10 : ℚ) ^ (1 : ℕ)) := rfl
  rw [hp, show digitsToNat ['1'] = 1 from by decide, show digitsToNat ['2'] = 2 from by decide]
  norm_num

/-- Membership in a left fold of keyword filters: a row survives the loop
iff it was in the accumulator and matches none of the keywords. -/
theorem mem_foldl_filter_not (kws : List String) (acc : List EpaRow) (r : EpaRow) :
    r ∈ kws.foldl (fun a kw => a.filter (fun x => !modelContainsKeyword x.model kw)) acc ↔
      r ∈ acc ∧ ∀ kw ∈ kws, modelContainsKeyword r.model kw = false := by
  induction kws generalizing acc with
  | nil => simp
  | cons k ks ih =>
    rw [List.foldl_cons, ih]
    simp only [List.mem_filter, List.forall_mem_cons, Bool.not_eq_true']
    tauto

/-- C7: `filter_sports_from_epa` retains exactly the rows the category
classifier does not flag: a record is removed iff its make is a
case-sensitive member of the brand allowlist or its model contains, case
insensitively, one of the performance keywords. -/
theorem c7_classifier_filter (rows : List EpaRow) (r : EpaRow) :
    r ∈ filter_sports_from_epa rows ↔
      r ∈ rows ∧ isSportsVehicle r.make r.model = false := by
  unfold filter_sports_from_epa
  rw [mem_foldl_filter_not]
  simp only [List.mem_filter, Bool.not_eq_true', isSportsVehicle,
    Bool.or_eq_false_iff, List.any_eq_false, and_assoc, Bool.not_eq_true]

/-- The pandas column mean over mapped optional cells equals the spec-side
mean over the null-stripped value list. -/
theorem meanOpt_map_eq_meanSpec {α : Type} (g : List α) (f : α → Option ℚ) :
    meanOpt (g.map f) = meanSpec (g.filterMap f) := by
  unfold meanOpt meanSpec
  simp only [List.filterMap_map, Function.id_comp, List.isEmpty_iff]

/-- C5: every (year, metric) cell of the yearly aggregates is the arithmetic
mean of only the non-null source values of that metric among the records of
that year (nulls excluded from sum and count), and a year whose metric has
zero non-null contributors yields a null cell. -/
theorem c5_mean_over_nonnull :
    (∀ (df : EpaPlotFrame) (y0 y1 : Int) (fts : Option (List String))
        (row : EpaYearlyRow),
      row ∈ compute_epa_yearly_aggregates df y0 y1 fts →
        row.mpg = meanSpec ((epaYearGroup df y0 y1 fts row.year).filterMap (·.mpg)) ∧
        row.co2 = meanSpec ((epaYearGroup df y0 y1 fts row.year).filterMap (·.co2)) ∧
        row.displacement =
          meanSpec ((epaYearGroup df y0 y1 fts row.year).filterMap (·.displacement))) ∧
    (∀ (df : SportsPlotFrame) (y0 y1 : Int) (brands : Option (List String))
        (row : SportsYearlyRow),
      row ∈ compute_sports_yearly_aggregates df y0 y1 brands →
        row.hp = meanSpec ((sportsYearGroup df y0 y1 brands row.year).filterMap (·.hp)) ∧
        row.engineSize =
          meanSpec ((sportsYearGroup df y0 y1 brands row.year).filterMap (·.engineSize)) ∧
        row.price =
          meanSpec ((sportsYearGroup df y0 y1 brands row.year).filterMap (·.price)) ∧
        row.zeroSixty =
          meanSpec ((sportsYearGroup df y0 y1 brands row.year).filterMap (·.zeroSixty))) := by
  constructor
  · intro df y0 y1 fts row h
    unfold compute_epa_yearly_aggregates at h
    obtain ⟨y, _, rfl⟩ := List.mem_map.1 h
    exact ⟨meanOpt_map_eq_meanSpec _ _, meanOpt_map_eq_meanSpec _ _,
      meanOpt_map_eq_meanSpec _ _⟩
  · intro df y0 y1 brands row h
    unfold compute_sports_yearly_aggregates at h
    obtain ⟨y, _, rfl⟩ := List.mem_map.1 h
    exact ⟨meanOpt_map_eq_meanSpec _ _, meanOpt_map_eq_meanSpec _ _,
      meanOpt_map_eq_meanSpec _ _, meanOpt_map_eq_meanSpec _ _⟩

/-- C5 witness: three records of year 2015 with MPG values `[10, 20, null]`
aggregate to a single row whose MPG mean is exactly `15`. -/
theorem c5_mean_over_nonnull_witness :
    ∃ row ∈ compute_epa_yearly_aggregates
      ⟨[⟨none, none, 2015, none, none, some 10, none, none, none, none⟩,
        ⟨none, none, 2015, none, none, some 20, none, none, none, none⟩,
        ⟨none, none, 2015, none, none, none, none, none, none, none⟩], true⟩
      2000 2025 none, row.mpg = some (15 : ℚ) := by
  have hmem : (⟨2015, meanOpt [some 10, some 20, none], meanOpt [none, none, none],
      meanOpt [none, none, none]⟩ : EpaYearlyRow) ∈ compute_epa_yearly_aggregates
      ⟨[⟨none, none, 2015, none, none, some 10, none, none, none, none⟩,
        ⟨none, none, 2015, none, none, some 20, none, none, none, none⟩,
        ⟨none, none, 2015, none, none, none, none, none, none, none⟩], true⟩
      2000 2025 none := by
    have hc : compute_epa_yearly_aggregates
        ⟨[⟨none, none, 2015, none, none, some 10, none, none, none, none⟩,
          ⟨none, none, 2015, none, none, some 20, none, none, none, none⟩,
          ⟨none, none, 2015, none, none, none, none, none, none, none⟩], true⟩
        2000 2025 none =
        [⟨2015, meanOpt [some 10, some 20, none], meanOpt [none, none, none],
          meanOpt [none, none, none]⟩] := rfl
    rw [hc]
    exact List.mem_singleton_self _
  have h := (c5_mean_over_nonnull.1 _ 2000 2025 none _ hmem).1
  refine ⟨_, hmem, h.trans ?_⟩
  show meanSpec [(10 : ℚ), 20] = some 15
  rw [show meanSpec [(10 : ℚ), 20] = some ((10 + (20 + 0)) / ((2 : ℕ) : ℚ)) from rfl]
  norm_num

/-- Membership in the computed missing-column list is exactly "required but
absent from the frame's columns". -/
theorem mem_missing_iff (required cols : List String) (c : String) :
    c ∈ required.filter (fun c => !cols.contains c) ↔ c ∈ required ∧ c ∉ cols := by
  simp [List.mem_filter]

/-- C6: a yearly-aggregation call whose required metric columns are not all
present fails with a schema-mismatch error whose payload is exactly the list
of missing columns, and when every required column is present no such error
is raised. -/
theorem c6_required_column_validation :
    (∀ f : EpaFrame,
      ((∃ c ∈ requiredEpaCols, c ∉ f.cols) →
        ∃ missing, compute_epa_yearly f = .error missing ∧ missing ≠ [] ∧
          ∀ c, c ∈ missing ↔ (c ∈ requiredEpaCols ∧ c ∉ f.cols)) ∧
      ((∀ c ∈ requiredEpaCols, c ∈ f.cols) →
        ∃ res, compute_epa_yearly f = .ok res)) ∧
    (∀ f : SportsFrame,
      ((∃ c ∈ requiredSportsCols, c ∉ f.cols) →
        ∃ missing, compute_sports_yearly f = .error missing ∧ missing ≠ [] ∧
          ∀ c, c ∈ missing ↔ (c ∈ requiredSportsCols ∧ c ∉ f.cols)) ∧
      ((∀ c ∈ requiredSportsCols, c ∈ f.cols) →
        ∃ res, compute_sports_yearly f = .ok res)) := by
  constructor
  · intro f
    constructor
    · rintro ⟨c, hc, hcn⟩
      have hmem : c ∈ requiredEpaCols.filter (fun c => !f.cols.contains c) :=
        (mem_missing_iff _ _ _).2 ⟨hc, hcn⟩
      have hne : requiredEpaCols.filter (fun c => !f.cols.contains c) ≠ [] :=
        List.ne_nil_of_mem hmem
      refine ⟨_, ?_, hne, fun c' => mem_missing_iff _ _ _⟩
      have hfalse : (requiredEpaCols.filter (fun c => !f.cols.contains c)).isEmpty = false := by
        simpa [List.isEmpty_iff] using hne
      simp only [compute_epa_yearly]
      rw [if_neg (by simpa [List.isEmpty_iff] using hne)]
    · intro hall
      have hnil : requiredEpaCols.filter (fun c => !f.cols.contains c) = [] :=
        List.filter_eq_nil_iff.2 (fun c hc => by simpa using hall c hc)
      cases hcase : compute_epa_yearly f with
      | ok res => exact ⟨res, rfl⟩
      | error e =>
        exfalso
        simp only [compute_epa_yearly] at hcase
        rw [if_pos (by rw [hnil]; rfl)] at hcase
        simp at hcase
  · intro f
    constructor
    · rintro ⟨c, hc, hcn⟩
      have hmem : c ∈ requiredSportsCols.filter (fun c => !f.cols.contains c) :=
        (mem_missing_iff _ _ _).2 ⟨hc, hcn⟩
      have hne : requiredSportsCols.filter (fun c => !f.cols.contains c) ≠ [] :=
        List.ne_nil_of_mem hmem
      refine ⟨_, ?_, hne, fun c' => mem_missing_iff _ _ _⟩
      have hfalse : (requiredSportsCols.filter (fun c => !f.cols.contains c)).isEmpty = false := by
        simpa [List.isEmpty_iff] using hne
      simp only [compute_sports_yearly]
      rw [if_neg (by simpa [List.isEmpty_iff] using hne)]
    · intro hall
      have hnil : requiredSportsCols.filter (fun c => !f.cols.contains c) = [] :=
        List.filter_eq_nil_iff.2 (fun c hc => by simpa using hall c hc)
      cases hcase : compute_sports_yearly f with
      | ok res => exact ⟨res, rfl⟩
      | error e =>
        exfalso
        simp only [compute_sports_yearly] at hcase
        rw [if_pos (by rw [hnil]; rfl)] at hcase
        simp at hcase

/-- C6 witness: an EPA frame holding only a `Year` column is rejected with a
nonempty missing-column report, and a sports frame holding every required
column aggregates without error. -/
theorem c6_required_column_validation_witness :
    (∃ missing, compute_epa_yearly ⟨["Year"], []⟩ = .error missing ∧ missing ≠ [] ∧
      ∀ c, c ∈ missing ↔ (c ∈ requiredEpaCols ∧ c ∉ (⟨["Year"], []⟩ : EpaFrame).cols)) ∧
    (∃ res, compute_sports_yearly ⟨requiredSportsCols, []⟩ = .ok res) :=
  ⟨(c6_required_column_validation.1 ⟨["Year"], []⟩).1
      ⟨"Combined Mpg For Fuel Type1", by decide, by decide⟩,
    (c6_required_column_validation.2 ⟨requiredSportsCols, []⟩).2 (by decide)⟩

/-- Every year row of the computed fuel-share count table has at least one
contributing record: a year appears only because some record of that year
carried a (non-null) fuel type, and that record's category cell counts it. -/
theorem fuel_share_row_total_pos (df : EpaPlotFrame) (y0 y1 : Int)
    (fts : Option (List String)) (table : List (Int × List (String × Nat)))
    (htab : compute_fuel_share_by_year df y0 y1 fts = .ok table) :
    ∀ row ∈ table, 1 ≤ (row.2.map (·.2)).sum := by
  unfold compute_fuel_share_by_year at htab
  cases hcol : df.hasFuelTypeCol with
  | false => rw [hcol] at htab; simp at htab
  | true =>
    rw [hcol] at htab
    simp only [if_pos] at htab
    obtain rfl := Except.ok.inj htab
    intro row hrow
    obtain ⟨y, hy, rfl⟩ := List.mem_map.1 hrow
    simp only [sortedYears, List.mem_insertionSort, List.mem_dedup] at hy
    obtain ⟨r, hrg, hry⟩ := List.mem_map.1 hy
    obtain ⟨ft0, hft⟩ := Option.isSome_iff_exists.1 (List.mem_filter.1 hrg).2
    have hftmem : ft0 ∈ ((df.rows.filter (epaMask true y0 y1 fts)).filter
        (fun r => r.fuelType.isSome)).filterMap (·.fuelType) :=
      List.mem_filterMap.2 ⟨r, hrg, hft⟩
    have hcell : 1 ≤ (((df.rows.filter (epaMask true y0 y1 fts)).filter
        (fun r => r.fuelType.isSome)).filter
          (fun r' => decide (r'.year = y) && decide (r'.fuelType = some ft0))).length := by
      have hrin : r ∈ ((df.rows.filter (epaMask true y0 y1 fts)).filter
          (fun r => r.fuelType.isSome)).filter
            (fun r' => decide (r'.year = y) && decide (r'.fuelType = some ft0)) :=
        List.mem_filter.2 ⟨hrg, by simp [hry, hft]⟩
      exact Nat.succ_le_of_lt (List.length_pos.2 (List.ne_nil_of_mem hrin))
    refine le_trans hcell (List.le_sum_of_mem ?_)
    exact List.mem_map.2 ⟨(ft0, _), List.mem_map.2 ⟨ft0, List.mem_dedup.2 hftmem, rfl⟩, rfl⟩

/-- C8: in percentage mode every year row of the fuel-share table sums to
exactly `100` (hence within any tolerance): each such row has at least one
contributing record, so the divide-by-zero guard (`row_sums.replace(0, 1)`)
never fires on it and the row is divided by its true total. -/
theorem c8_percent_closure (df : EpaPlotFrame) (y0 y1 : Int)
    (fts : Option (List String)) (table : List (Int × List (String × Nat)))
    (htab : compute_fuel_share_by_year df y0 y1 fts = .ok table) :
    (∀ row ∈ table, 1 ≤ (row.2.map (·.2)).sum) ∧
    (∀ prow ∈ to_percent table, (prow.2.map (·.2)).sum = (100 : ℚ)) := by
  refine ⟨fuel_share_row_total_pos df y0 y1 fts table htab, ?_⟩
  intro prow hp
  unfold to_percent at hp
  obtain ⟨row, hrow, rfl⟩ := List.mem_map.1 hp
  have htot : 1 ≤ (row.2.map (·.2)).sum :=
    fuel_share_row_total_pos df y0 y1 fts table htab row hrow
  have htne : (row.2.map (·.2)).sum ≠ 0 := by omega
  have hne' : ((((row.2.map (·.2)).sum : Nat)) : ℚ) ≠ 0 := Nat.cast_ne_zero.2 htne
  simp only [List.map_map, Function.comp_def, if_neg htne, div_eq_mul_inv]
  rw [List.sum_map_mul_right, List.sum_map_mul_right]
  have hsum : (row.2.map (fun c => ((c.2 : Nat) : ℚ))).sum =
      ((((row.2.map (·.2)).sum : Nat)) : ℚ) := by
    rw [Nat.cast_list_sum, List.map_map]
    rfl
  rw [hsum, mul_inv_cancel₀ hne', one_mul]

/-- C8 witness: a frame with one Regular and one Electric 2020 record
produces a percentage row summing to exactly `100`. -/
theorem c8_percent_closure_witness :
    ((to_percent [((2020 : Int), [("Regular", 1), ("Electric", 1)])]).headI.2.map
      (·.2)).sum = (100 : ℚ) :=
  (c8_percent_closure
    ⟨[⟨none, none, 2020, some "Regular", none, none, none, none, none, none⟩,
      ⟨none, none, 2020, some "Electric", none, none, none, none, none, none⟩], true⟩
    2013 2024 none [((2020 : Int), [("Regular", 1), ("Electric", 1)])] rfl).2
    (to_percent [((2020 : Int), [("Regular", 1), ("Electric", 1)])]).headI
    (List.mem_singleton_self _)

/-- A row emitted by `dedupByKey` has a key outside the seen set. -/
theorem dedupByKey_key_not_seen {a k : Type} [DecidableEq k] (key : a → k) :
    ∀ (l : List a) (seen : List k) (r : a),
      r ∈ dedupByKey key l seen → key r ∉ seen := by
  intro l
  induction l with
  | nil => intro seen r h; simp [dedupByKey] at h
  | cons c cs ih =>
    intro seen r h
    unfold dedupByKey at h
    by_cases hc : key c ∈ seen
    · rw [if_pos hc] at h
      exact ih seen r h
    · rw [if_neg hc] at h
      rcases List.mem_cons.1 h with rfl | h2
      · exact hc
      · intro hs
        exact (ih _ r h2) (List.mem_cons_of_mem _ hs)

/-- `dedupByKey` only keeps rows of its input. -/
theorem dedupByKey_subset {a k : Type} [DecidableEq k] (key : a → k) :
    ∀ (l : List a) (seen : List k) (r : a),
      r ∈ dedupByKey key l seen → r ∈ l := by
  intro l
  induction l with
  | nil => intro seen r h; simp [dedupByKey] at h
  | cons c cs ih =>
    intro seen r h
    unfold dedupByKey at h
    by_cases hc : key c ∈ seen
    · rw [if_pos hc] at h
      exact List.mem_cons_of_mem _ (ih seen r h)
    · rw [if_neg hc] at h
      rcases List.mem_cons.1 h with rfl | h2
      · exact List.mem_cons_self _ _
      · exact List.mem_cons_of_mem _ (ih _ r h2)

/-- Every unseen key present in the input survives into the output. -/
theorem dedupByKey_covers {a k : Type} [DecidableEq k] (key : a → k) :
    ∀ (l : List a) (seen : List k) (r : a), r ∈ l → key r ∉ seen →
      ∃ r', r' ∈ dedupByKey key l seen ∧ key r' = key r := by
  intro l
  induction l with
  | nil => intro seen r h; simp at h
  | cons c cs ih =>
    intro seen r h hk
    unfold dedupByKey
    rcases List.mem_cons.1 h with rfl | h2
    · rw [if_neg hk]
      exact ⟨r, List.mem_cons_self _ _, rfl⟩
    · by_cases hc : key c ∈ seen
      · rw [if_pos hc]
        exact ih seen r h2 hk
      · rw [if_neg hc]
        by_cases hkc : key r = key c
        · exact ⟨c, List.mem_cons_self _ _, hkc.symm⟩
        · obtain ⟨r', hr', hkey⟩ := ih (key c :: seen) r h2
            (by simp [hkc, hk])
          exact ⟨r', List.mem_cons_of_mem _ hr', hkey⟩

/-- The output of `dedupByKey` carries pairwise-distinct keys. -/
theorem dedupByKey_nodup_keys {a k : Type} [DecidableEq k] (key : a → k) :
    ∀ (l : List a) (seen : List k), ((dedupByKey key l seen).map key).Nodup := by
  intro l
  induction l with
  | nil => intro seen; simp [dedupByKey]
  | cons c cs ih =>
    intro seen
    unfold dedupByKey
    by_cases hc : key c ∈ seen
    · rw [if_pos hc]
      exact ih seen
    · rw [if_neg hc]
      rw [List.map_cons, List.nodup_cons]
      refine ⟨?_, ih _⟩
      intro hmem
      obtain ⟨r, hr, hkey⟩ := List.mem_map.1 hmem
      exact (dedupByKey_key_not_seen key cs _ r hr) (by simp [hkey])

/-- In a price-descending list, the first kept row of a key is priced as soon
as any row of that key is: a priced row cannot come after an unpriced one. -/
theorem dedupByKey_first_priced :
    ∀ (l : List SportsRow) (seen : List (Option String × Option String × Int)),
      l.Pairwise PriceLE →
      ∀ (r r' : SportsRow), r ∈ l → r.price ≠ none →
        r' ∈ dedupByKey naturalKey l seen → naturalKey r' = naturalKey r →
        r'.price ≠ none := by
  intro l
  induction l with
  | nil => intro seen _ r r' h; simp at h
  | cons c cs ih =>
    intro seen hpw r r' hr hpr hr' hk
    obtain ⟨hc_le, hpw'⟩ := List.pairwise_cons.1 hpw
    unfold dedupByKey at hr'
    by_cases hc : naturalKey c ∈ seen
    · rw [if_pos hc] at hr'
      rcases List.mem_cons.1 hr with rfl | h2
      · exact absurd (hk ▸ hc) (dedupByKey_key_not_seen _ cs seen r' hr')
      · exact ih seen hpw' r r' h2 hpr hr' hk
    · rw [if_neg hc] at hr'
      rcases List.mem_cons.1 hr' with rfl | h2
      · rcases List.mem_cons.1 hr with rfl | h3
        · exact hpr
        · intro hnone
          obtain ⟨p, hp⟩ := Option.ne_none_iff_exists'.1 hpr
          have hle : priceW r ≤ priceW r' := hc_le r h3
          rw [show priceW r' = ⊥ from by unfold priceW; rw [hnone]] at hle
          rw [show priceW r = ((p : ℚ) : WithBot ℚ) from by unfold priceW; rw [hp]] at hle
          exact WithBot.coe_ne_bot (le_bot_iff.1 hle)
      · have hkr' := dedupByKey_key_not_seen _ cs _ r' h2
        rcases List.mem_cons.1 hr with rfl | h3
        · exact absurd (by simp [hk]) hkr'
        · exact ih _ hpw' r r' h3 hpr h2 hk

/-- C2: when exactly one record among a natural-key collision carries a
non-null price, the dedup of `load_and_clean_sports_with_mpg` keeps exactly
that record; and in the enrichment merge an original sports record with a
price always survives while every mainstream-derived record of the same key
is dropped before concatenation. -/
theorem c2_price_preference :
    (∀ (rows : List SportsRow) (r : SportsRow) (p : ℚ),
      r ∈ rows → r.price = some p →
      (∀ r' ∈ rows, naturalKey r' = naturalKey r → r' = r ∨ r'.price = none) →
      r ∈ dedup_sports rows ∧
        ∀ q ∈ dedup_sports rows, naturalKey q = naturalKey r → q = r) ∧
    (∀ (sports mapped : List SportsRow) (s : SportsRow) (p : ℚ),
      s ∈ sports → s.price = some p →
      s ∈ enriched_sports sports mapped ∧
        ∀ e ∈ mapped, naturalKey e = naturalKey s →
          e ∉ epa_sports_new sports mapped) := by
  constructor
  · intro rows r p hr hp huniq
    have hperm := List.perm_insertionSort PriceLE rows
    have hsorted : (List.insertionSort PriceLE rows).Pairwise PriceLE :=
      List.sorted_insertionSort PriceLE rows
    have hr_s : r ∈ List.insertionSort PriceLE rows := hperm.mem_iff.2 hr
    obtain ⟨kept, hkept, hkey⟩ :=
      dedupByKey_covers naturalKey (List.insertionSort PriceLE rows) [] r hr_s
        (List.not_mem_nil _)
    have hkept_rows : kept ∈ rows :=
      hperm.mem_iff.1 (dedupByKey_subset naturalKey _ _ kept hkept)
    have hkept_price : kept.price ≠ none :=
      dedupByKey_first_priced _ [] hsorted r kept hr_s (by simp [hp]) hkept hkey
    have hkept_eq : kept = r :=
      (huniq kept hkept_rows hkey).resolve_right hkept_price
    subst hkept_eq
    refine ⟨hkept, ?_⟩
    intro q hq hqkey
    have hnodup := dedupByKey_nodup_keys naturalKey (List.insertionSort PriceLE rows) []
    exact List.inj_on_of_nodup_map hnodup hq hkept hqkey
  · intro sports mapped s p hs _
    refine ⟨List.mem_append_left _ hs, ?_⟩
    intro e _ hekey hmem
    have : ¬decide (naturalKey e ∈ sports.map naturalKey) = true :=
      by simpa using (List.mem_filter.1 hmem).2
    exact this (by simp [hekey, List.mem_map.2 ⟨s, hs, rfl⟩])

/-- C2 witness: of two colliding Porsche 911 2020 records where only one has
a price, the dedup keeps exactly the priced one, and an original priced
sports record survives enrichment. -/
theorem c2_price_preference_witness :
    ((⟨some "Porsche", some "911", 2020, none, none, none, none,
        some 120000, none⟩ : SportsRow) ∈
      dedup_sports
        [⟨some "Porsche", some "911", 2020, none, none, none, none, none, none⟩,
         ⟨some "Porsche", some "911", 2020, none, none, none, none,
           some 120000, none⟩]) ∧
    ((⟨some "Porsche", some "911", 2020, none, none, none, none,
        some 120000, none⟩ : SportsRow) ∈
      enriched_sports
        [⟨some "Porsche", some "911", 2020, none, none, none, none,
           some 120000, none⟩]
        [⟨some "Porsche", some "911", 2020, none, none, none, none,
           none, none⟩]) :=
  ⟨(c2_price_preference.1
      [⟨some "Porsche", some "911", 2020, none, none, none, none, none, none⟩,
       ⟨some "Porsche", some "911", 2020, none, none, none, none,
         some 120000, none⟩]
      ⟨some "Porsche", some "911", 2020, none, none, none, none,
        some 120000, none⟩ 120000 (by decide) rfl (by decide)).1,
   (c2_price_preference.2
      [⟨some "Porsche", some "911", 2020, none, none, none, none,
         some 120000, none⟩]
      [⟨some "Porsche", some "911", 2020, none, none, none, none,
         none, none⟩]
      ⟨some "Porsche", some "911", 2020, none, none, none, none,
        some 120000, none⟩ 120000 (by decide) rfl).1⟩

/-- C3 amended: the dedup of `load_and_clean_sports_with_mpg` emits
pairwise-distinct natural keys; in the enrichment merge no EPA-derived
record shares a key with an original sports record, and the EPA-derived
records are key-distinct among themselves — but duplicate keys already
present inside the original sports input pass through unchanged (see the
counterexample). -/
theorem c3_amended_no_duplicate_keys :
    (∀ rows : List SportsRow, ((dedup_sports rows).map naturalKey).Nodup) ∧
    (∀ (sports mapped : List SportsRow) (e : SportsRow),
      e ∈ epa_sports_new sports mapped →
        naturalKey e ∉ sports.map naturalKey) ∧
    (∀ epa : List EpaRow, ((epa_sports_mapped epa).map naturalKey).Nodup) := by
  refine ⟨?_, ?_, ?_⟩
  · intro rows
    exact dedupByKey_nodup_keys naturalKey _ []
  · intro sports mapped e hmem hkey
    have := (List.mem_filter.1 hmem).2
    simp [hkey] at this
  · intro epa
    have hmap : (epa_sports_mapped epa).map naturalKey =
        (sports_from_epa_rows epa).map epaKey := by
      unfold epa_sports_mapped
      rw [List.map_map]
      rfl
    rw [hmap]
    unfold sports_from_epa_rows
    exact dedupByKey_nodup_keys epaKey _ []

/-- C3 amended witness: an EPA-derived record kept by `epa_sports_new` has a
key absent from the original sports records. -/
theorem c3_amended_no_duplicate_keys_witness :
    naturalKey (⟨some "BMW", some "M3", 2015, none, none, none, none,
        none, none⟩ : SportsRow) ∉
      [(⟨some "Porsche", some "911", 2020, none, none, none, none,
          some 120000, none⟩ : SportsRow)].map naturalKey :=
  c3_amended_no_duplicate_keys.2.1
    [⟨some "Porsche", some "911", 2020, none, none, none, none,
       some 120000, none⟩]
    [⟨some "BMW", some "M3", 2015, none, none, none, none, none, none⟩]
    ⟨some "BMW", some "M3", 2015, none, none, none, none, none, none⟩
    (by decide)

/-- When the maximal numeric prefix holds at most one dot (counting one for
an already-seen dot), the spec tokenizer consumes exactly that prefix. -/
theorem takeFloatToken_eq_takeWhile :
    ∀ (l : List Char) (seen : Bool),
      (l.takeWhile isNumChar).count '.' + (if seen then 1 else 0) ≤ 1 →
      takeFloatToken l seen = l.takeWhile isNumChar := by
  intro l
  induction l with
  | nil => intro seen _; rfl
  | cons c cs ih =>
    intro seen h
    unfold takeFloatToken
    by_cases hd : c.isDigit
    · have hnum : isNumChar c = true := by simp [isNumChar, hd]
      have hcdot : c ≠ '.' := by
        intro hcc; rw [hcc] at hd; simp at hd
      rw [List.takeWhile_cons, if_pos hnum] at h ⊢
      rw [List.count_cons] at h
      simp only [beq_iff_eq] at h
      rw [if_neg hcdot] at h
      rw [if_pos hd, ih seen (by omega)]
    · by_cases hdot : c = '.'
      · subst hdot
        have hnum : isNumChar '.' = true := by decide
        rw [List.takeWhile_cons, if_pos hnum] at h ⊢
        rw [List.count_cons] at h
        simp only [beq_iff_eq, if_pos rfl] at h
        cases seen with
        | true => simp at h
        | false =>
          rw [if_neg (by simp [hd]), if_pos (by decide)]
          rw [ih true (by simp; simp at h; omega)]
      · have hd' : c.isDigit = false := by simpa using hd
        have hnum : isNumChar c = false := by simp [isNumChar, hd', hdot]
        rw [if_neg hd,
          if_neg (show ¬((decide (c = '.') && !seen) = true) from by simp [hdot]),
          List.takeWhile_cons,
          if_neg (show ¬(isNumChar c = true) from by simp [hnum])]

/-- When the first `[0-9.]` run of the input holds at most one dot, the
regex extraction and the spec tokenizer find the same token. -/
theorem firstNumRun_spec_agree :
    ∀ (l : List Char) (t : List Char), firstNumRun l = some t →
      t.count '.' ≤ 1 → specFirstToken l = some t := by
  intro l
  induction l with
  | nil => intro t h; simp [firstNumRun] at h
  | cons c cs ih =>
    intro t h hcount
    unfold firstNumRun at h
    unfold specFirstToken
    by_cases hc : isNumChar c = true
    · rw [if_pos hc] at h
      rw [if_pos hc]
      obtain rfl := Option.some.inj h
      have htw : (c :: cs).takeWhile isNumChar = c :: cs.takeWhile isNumChar := by
        rw [List.takeWhile_cons, if_pos hc]
      rw [takeFloatToken_eq_takeWhile (c :: cs) false (by rw [htw]; simpa using hcount),
        htw]
    · rw [if_neg hc] at h
      rw [if_neg hc]
      exact ih t h hcount

/-- The extracted run is nonempty. -/
theorem firstNumRun_ne_nil :
    ∀ (l : List Char) (t : List Char), firstNumRun l = some t → t ≠ [] := by
  intro l
  induction l with
  | nil => intro t h; simp [firstNumRun] at h
  | cons c cs ih =>
    intro t h
    unfold firstNumRun at h
    by_cases hc : isNumChar c = true
    · rw [if_pos hc] at h
      obtain rfl := Option.some.inj h
      simp
    · rw [if_neg hc] at h
      exact ih t h

/-- Every character of the extracted run occurs in the input and matches
`[0-9.]`. -/
theorem firstNumRun_chars :
    ∀ (l : List Char) (t : List Char), firstNumRun l = some t →
      ∀ c ∈ t, c ∈ l ∧ isNumChar c = true := by
  intro l
  induction l with
  | nil => intro t h; simp [firstNumRun] at h
  | cons c cs ih =>
    intro t h x hx
    unfold firstNumRun at h
    by_cases hc : isNumChar c = true
    · rw [if_pos hc] at h
      obtain rfl := Option.some.inj h
      rcases List.mem_cons.1 hx with rfl | hx2
      · exact ⟨List.mem_cons_self _ _, hc⟩
      · exact ⟨List.mem_cons_of_mem _ ((List.takeWhile_sublist _).mem hx2),
          List.mem_takeWhile_imp hx2⟩
    · rw [if_neg hc] at h
      obtain ⟨hmem, hnum⟩ := ih t h x hx
      exact ⟨List.mem_cons_of_mem _ hmem, hnum⟩

/-- A nonempty all-dot token is coerced to missing by `to_numeric`. -/
theorem parseFloatQ_all_dots (t : List Char) (hne : t ≠ [])
    (hdots : ∀ c ∈ t, c = '.') : parseFloatQ t = none := by
  cases t with
  | nil => exact absurd rfl hne
  | cons c rest =>
    obtain rfl : c = '.' := hdots c (List.mem_cons_self _ _)
    have hip : ('.' :: rest).takeWhile Char.isDigit = [] := by
      rw [List.takeWhile_cons, if_neg (by decide)]
    unfold parseFloatQ
    rw [hip]
    simp only [List.length_nil, List.drop_zero]
    cases rest with
    | nil => rfl
    | cons d rest' =>
      obtain rfl : d = '.' := hdots d (List.mem_cons_of_mem _ (List.mem_cons_self _ _))
      simp

/-- C4 amended: after dropping commas (and, in the enrich variant, dollar
signs), the normalizer takes the first maximal run of digit/dot characters
and parses it; a run with at most one dot yields the token the spec's
"digits plus at most one decimal point" reading would (so the two agree on
such inputs, `"$1,234 or more"` giving `1234.0`), but a run with two or more
dots is coerced to missing rather than parsed up to its longest valid
prefix, and a string with no digits yields missing, never zero and never an
exception. -/
theorem c4_amended_normalizer :
    (normalizeNumericCell "$1,234 or more" = some 1234 ∧
     normalizeNumericCellEnrich "$1,234 or more" = some 1234) ∧
    (∀ s : String, (∀ c ∈ s.toList, c.isDigit = false) →
      normalizeNumericCell s = none) ∧
    (∀ (s : String) (t : List Char),
      firstNumRun (s.toList.filter (fun c => decide (c ≠ ',' ∧ c ≠ '$'))) = some t →
      t.count '.' ≤ 1 →
      normalizeNumericCellEnrich s = specNormalizeClaim s) := by
  refine ⟨⟨?_, ?_⟩, ?_, ?_⟩
  · rw [show normalizeNumericCell "$1,234 or more" =
        some ((digitsToNat ['1', '2', '3', '4'] : Nat) : ℚ) from rfl,
      show digitsToNat ['1', '2', '3', '4'] = 1234 from by decide]
    norm_num
  · rw [show normalizeNumericCellEnrich "$1,234 or more" =
        some ((digitsToNat ['1', '2', '3', '4'] : Nat) : ℚ) from rfl,
      show digitsToNat ['1', '2', '3', '4'] = 1234 from by decide]
    norm_num
  · intro s hnd
    show (match firstNumRun (s.toList.filter (fun c => decide (c ≠ ','))) with
      | none => none
      | some t => parseFloatQ t) = none
    cases hfr : firstNumRun (s.toList.filter (fun c => decide (c ≠ ','))) with
    | none => rfl
    | some t =>
      show parseFloatQ t = none
      refine parseFloatQ_all_dots t (firstNumRun_ne_nil _ t hfr) ?_
      intro c hc
      obtain ⟨hmem, hnum⟩ := firstNumRun_chars _ t hfr c hc
      have hdig : c.isDigit = false := hnd c (List.mem_filter.1 hmem).1
      simpa [isNumChar, hdig] using hnum
  · intro s t hfr hcount
    have hspec := firstNumRun_spec_agree _ t hfr hcount
    show (match firstNumRun (s.toList.filter (fun c => decide (c ≠ ',' ∧ c ≠ '$'))) with
      | none => none
      | some t => parseFloatQ t) =
      (match specFirstToken (s.toList.filter (fun c => decide (c ≠ ',' ∧ c ≠ '$'))) with
      | none => none
      | some t => parseFloatQ t)
    rw [hfr, hspec]

/-- C4 amended witness: a digit-free string normalizes to missing, and on
the spec's `"12,345.6 USD"` example the code normalizer agrees with the
spec tokenizer (both give `12345.6`). -/
theorem c4_amended_normalizer_witness :
    normalizeNumericCell "no digits here" = none ∧
    normalizeNumericCellEnrich "12,345.6 USD" = specNormalizeClaim "12,345.6 USD" :=
  ⟨c4_amended_normalizer.2.1 "no digits here" (by decide),
   c4_amended_normalizer.2.2 "12,345.6 USD" ['1', '2', '3', '4', '5', '.', '6']
     (by decide) (by decide)⟩

/-- C7 witness: a BMW M3 is removed from the mainstream partition while a
Toyota Camry is retained. -/
theorem c7_classifier_filter_witness :
    ((⟨some "BMW", some "M3", 2015, none, none, none, none, none, none, none⟩ :
        EpaRow) ∉ filter_sports_from_epa
      [⟨some "BMW", some "M3", 2015, none, none, none, none, none, none, none⟩]) ∧
    ((⟨some "Toyota", some "Camry", 2015, none, none, none, none, none, none,
        none⟩ : EpaRow) ∈ filter_sports_from_epa
      [⟨some "Toyota", some "Camry", 2015, none, none, none, none, none, none,
        none⟩]) :=
  ⟨fun h => absurd ((c7_classifier_filter _ _).1 h).2 (by decide),
   (c7_classifier_filter _ _).2 ⟨by decide, by decide⟩⟩

end CS439
